import Mathlib

/-!
Verification of the Email2Telegram repository: a shallow embedding of the
email-intake-and-routing pipeline (allow-list check, topic routing, forwarded
comment extraction, watcher reconnection state machine, PDF render fallback,
delivery retry, HTML escaping and the retention sweep), together with theorems
settling the specification claims.

Strings from the JavaScript source are modelled at the `List Char` level
(wrapped into `String` at the interfaces); each definition mirrors the
corresponding source function.
-/

namespace Email2Telegram

/-- The JS `\s` whitespace class (used by `trim`, the `split` regexes and the
normalisation regexes in `extractForwardedText`). -/
def isSpaceJS (c : Char) : Bool :=
  c == ' ' || c == '\t' || c == '\n' || c == '\r' ||
  c == Char.ofNat 11 || c == Char.ofNat 12 ||
  c == Char.ofNat 0xa0 || c == Char.ofNat 0x1680 ||
  (decide (Char.ofNat 0x2000 ≤ c) && decide (c ≤ Char.ofNat 0x200a)) ||
  c == Char.ofNat 0x2028 || c == Char.ofNat 0x2029 ||
  c == Char.ofNat 0x202f || c == Char.ofNat 0x205f ||
  c == Char.ofNat 0x3000 || c == Char.ofNat 0xfeff

/-- JS `String.prototype.trim` on a character list. -/
def trimJS (l : List Char) : List Char :=
  ((l.dropWhile isSpaceJS).reverse.dropWhile isSpaceJS).reverse

/-- JS `String.prototype.toLowerCase` (ASCII range, which is all the source
relies on for domain comparison). -/
def lowerL (l : List Char) : List Char :=
  l.map Char.toLower

/-- `toLowerCase` at the `String` interface. -/
def toLowerStr (s : String) : String :=
  String.mk (lowerL s.data)

/-- JS `String.prototype.includes pat`: `pat` occurs as a contiguous
substring. -/
def seqIn (pat : List Char) : List Char → Bool
  | [] => pat.isEmpty
  | c :: rest => pat.isPrefixOf (c :: rest) || seqIn pat rest

/-- The prefix of `l` strictly before the first occurrence of `sep`; this is
`l.split(sep)[0]` in JS (the whole of `l` when `sep` does not occur). -/
def textBeforeFirst (sep : List Char) : List Char → List Char
  | [] => []
  | c :: rest =>
    if sep.isPrefixOf (c :: rest) then [] else c :: textBeforeFirst sep rest

/-- Helper for `split` on a single character: first segment plus the list of
remaining segments. -/
def splitAux (sep : Char) : List Char → List Char × List (List Char)
  | [] => ([], [])
  | c :: rest =>
    if c = sep then ([], (splitAux sep rest).1 :: (splitAux sep rest).2)
    else (c :: (splitAux sep rest).1, (splitAux sep rest).2)

/-- JS `String.prototype.split(sep)` for a one-character separator. -/
def splitOnCharL (sep : Char) (l : List Char) : List (List Char) :=
  (splitAux sep l).1 :: (splitAux sep l).2

/-! ## src/utils/whitelistManager.js -/

/-- `isDomainWildcard(pattern)`: `pattern.startsWith('*@') &&
pattern.split('@').length === 2`. -/
def isDomainWildcard (p : String) : Bool :=
  ("*@".data.isPrefixOf p.data) && (splitOnCharL '@' p.data).length == 2

/-- `matchesDomainWildcard(email, pattern)` from whitelistManager.js: guards
on falsy arguments and non-wildcard patterns, requires the email to split into
exactly two parts at `@`, and compares the lower-cased domains. -/
def matchesDomainWildcard (email pattern : String) : Bool :=
  if email.data = [] ∨ pattern.data = [] ∨ isDomainWildcard pattern = false
  then false
  else
    match splitOnCharL '@' email.data with
    | [_l, d] =>
      decide (lowerL ((splitOnCharL '@' pattern.data).getD 1 []) = lowerL d)
    | _ => false

/-- `isWhitelisted(email)` from whitelistManager.js, with the whitelist state
passed explicitly (the source reads it from the JSON store): accept-all when
empty, else exact `includes`, else any domain-wildcard entry matches. -/
def isWhitelisted (wl : List String) (email : String) : Bool :=
  if wl.isEmpty then true
  else if wl.contains email then true
  else (wl.filter (fun p => isDomainWildcard p)).any
    (fun p => matchesDomainWildcard email p)

/-- The intake pipeline's allow-list gate (`if (!isWhitelisted(senderEmail))
{ return; }` in emailService.js): `none` means the message is skipped with no
further processing. -/
def intakeGate (wl : List String) (sender : String) : Option String :=
  if isWhitelisted wl sender then some sender else none

/-! ## src/utils/topicManager.js -/

/-- The persisted topic settings record: `{ defaultTopic, topicMappings }`.
The JSON object holding the mappings is modelled as an association list with
distinct keys; `hasOwnProperty`/indexing is `List.lookup`. -/
structure TopicSettings where
  defaultTopic : Option Int
  topicMappings : List (String × Int)

/-- `getTopicForEmail(email)` from topicManager.js, with the settings passed
explicitly: falsy email returns the default topic; otherwise the email is
lower-cased, an exact mapping key wins, then the `*@domain` key for
`email.split('@')[1]`, then the default topic. -/
def getTopicForEmail (st : TopicSettings) (email : String) : Option Int :=
  if email.data = [] then st.defaultTopic
  else
    match st.topicMappings.lookup (toLowerStr email) with
    | some t => some t
    | none =>
      match splitOnCharL '@' (toLowerStr email).data with
      | _ :: d :: _ =>
        if d = [] then st.defaultTopic
        else
          match st.topicMappings.lookup (String.mk ('*' :: '@' :: d)) with
          | some t => some t
          | none => st.defaultTopic
      | _ => st.defaultTopic

/-- The domain part of a `*@domain` allow-list or routing pattern. -/
def wildcardPatternDomain (p : String) : List Char :=
  p.data.drop 2

/-- `S.split('@')[1]`: the domain of a sender address (second split segment,
empty when there is none). -/
def senderDomainL (s : String) : List Char :=
  (splitOnCharL '@' s.data).getD 1 []

/-- Resolution rule as worded by claim C2: the mapping for S when an exact
entry for S exists, else the mapping of a wildcard-domain entry whose domain
equals the domain of S under case-insensitive comparison, else the default
destination, else none.  Written from the claim, for comparison with
`getTopicForEmail`. -/
def resolveDestinationClaim (st : TopicSettings) (s : String) : Option Int :=
  match st.topicMappings.lookup s with
  | some t => some t
  | none =>
    match st.topicMappings.find?
        (fun kv => isDomainWildcard kv.1 && !(senderDomainL s).isEmpty &&
          decide (lowerL (wildcardPatternDomain kv.1) = lowerL (senderDomainL s))) with
    | some kv => some kv.2
    | none => st.defaultTopic

/-! ## src/services/emailService.js: watcher reconnection (`setupEmailListener`) -/

/-- `maxReconnectAttempts` in setupEmailListener. -/
def maxReconnectAttempts : Nat := 10

/-- `reconnectDelay` in setupEmailListener (milliseconds). -/
def reconnectDelay : Nat := 10000

/-- Watcher state: the `reconnectAttempts` counter plus whether the listener
has given up permanently (the `else` branch of the error handler, after which
no new connection object exists and nothing further can happen). -/
structure WatcherState where
  reconnectAttempts : Nat
  failed : Bool
deriving DecidableEq

/-- Events observable on one IMAP connection object: `ready`, `error` and a
clean `end`. -/
inductive WatcherEvent where
  | ready
  | connError
  | ended
deriving DecidableEq

/-- State before the first connection is created. -/
def initialWatcherState : WatcherState := ⟨0, false⟩

/-- One event-handler step of setupEmailListener.  The second component is
the scheduled reconnection: `some d` when `setTimeout(createImapConnection,
d)` is invoked, `none` otherwise.  `ready` resets the counter; `error` below
the bound increments the counter and schedules exactly one reconnect after
`reconnectDelay`; `error` at the bound is terminal; a clean `end` does
nothing. -/
def watcherStep (s : WatcherState) (e : WatcherEvent) : WatcherState × Option Nat :=
  if s.failed then (s, none)
  else
    match e with
    | .ready => ({ s with reconnectAttempts := 0 }, none)
    | .connError =>
      if s.reconnectAttempts < maxReconnectAttempts then
        ({ s with reconnectAttempts := s.reconnectAttempts + 1 }, some reconnectDelay)
      else
        ({ s with failed := true }, none)
    | .ended => (s, none)

/-- Run a sequence of events, collecting every scheduled reconnection
delay. -/
def watcherRun (s : WatcherState) : List WatcherEvent → WatcherState × List Nat
  | [] => (s, [])
  | e :: evs =>
    let step := watcherStep s e
    let rest := watcherRun step.1 evs
    (rest.1, step.2.toList ++ rest.2)

/-! ## src/services/emailService.js: delivery (`processNewEmails`) -/

/-- The Telegram `sendDocument` request assembled by processNewEmails:
destination chat, file name, caption and the optional
`message_thread_id`. -/
structure DeliveryRequest where
  chatId : String
  filename : String
  caption : String
  messageThreadId : Option Int
deriving DecidableEq

/-- Outcome of one `sendDocument` call. -/
inductive SendOutcome where
  | delivered
  | failed (errMsg : String)
deriving DecidableEq

/-- `telegramError.message.includes('message thread not found')`. -/
def isThreadNotFoundMsg (msg : String) : Bool :=
  seqIn "message thread not found".data msg.data

/-- JS truthiness of `options.message_thread_id` (a number: truthy iff
non-zero). -/
def threadIdTruthy : Option Int → Bool
  | none => false
  | some t => t != 0

/-- The retry request: `fallbackOptions = { ...options }` with
`message_thread_id` deleted; every other field is reused. -/
def withoutThread (req : DeliveryRequest) : DeliveryRequest :=
  { req with messageThreadId := none }

/-- The sequence of `sendDocument` requests issued for one message, given the
sink's behaviour `send`.  On failure whose message contains "message thread
not found" while a thread id was set, exactly one retry without the thread id
is issued; any other failure (including a failure of the retry itself, whose
outcome is only logged) causes no further attempt. -/
def sendAttempts (send : DeliveryRequest → SendOutcome) (req : DeliveryRequest) :
    List DeliveryRequest :=
  match send req with
  | .delivered => [req]
  | .failed msg =>
    if msg ≠ "" ∧ isThreadNotFoundMsg msg = true ∧ threadIdTruthy req.messageThreadId = true
    then [req, withoutThread req]
    else [req]

/-- `mail.subject || 'No Subject'`. -/
def subjectOrDefault : Option String → String
  | none => "No Subject"
  | some s => if s = "" then "No Subject" else s

/-- The caption assembled by processNewEmails:
`` `Email от ${senderEmail}: ${mail.subject || 'No Subject'}` `` followed by
two newlines and the forwarded comment when one was extracted (JS truthiness:
an empty comment string is not appended). -/
def buildCaption (senderEmail : String) (subject : Option String)
    (forwardedText : Option String) : String :=
  let base := "Email от " ++ senderEmail ++ ": " ++ subjectOrDefault subject
  match forwardedText with
  | some f => if f = "" then base else base ++ "\n\n" ++ f
  | none => base

/-- `message_thread_id` handling in processNewEmails: included only when
`topicId` is non-null and `parseInt(topicId, 10)` is a number greater than
zero (topic ids are modelled as integers, on which `parseInt` is the
identity). -/
def resolveThreadOption : Option Int → Option Int
  | none => none
  | some t => if 0 < t then some t else none

/-- The full delivery request assembled by processNewEmails for one
message. -/
def buildDeliveryRequest (chatId senderEmail : String) (subject : Option String)
    (forwardedText : Option String) (topicId : Option Int)
    (filename : String) : DeliveryRequest :=
  { chatId := chatId
    filename := filename
    caption := buildCaption senderEmail subject forwardedText
    messageThreadId := resolveThreadOption topicId }

/-! ## src/utils/pdfConverter.js: `convertEmailToPdf` control flow -/

/-- Header fields of a parsed email as consumed by the renderer.  The
`from`/`to`/`cc` union types and body fields are introduced with the
rendering functions below; here only the control flow of
`convertEmailToPdf` is modelled, with the primary path (HTML build, page
load, `page.pdf`) and the fallback path (plain-text build, `page.pdf`) as
outcome-producing stages. -/
def convertEmailToPdf (primary fallback : Except String (List Nat)) :
    Except String (List Nat) × Bool :=
  match primary with
  | .ok buf => (.ok buf, false)
  | .error err =>
    match fallback with
    | .ok buf => (.ok buf, true)
    | .error _ => (.error err, true)

/-! ## src/services/emailService.js: `extractForwardedText`

The four normalisation regex replacements are implemented as one-pass
scanners equivalent to the JS global replaces (leftmost match, greedy
quantifiers, resume after the match). -/

/-- The fixed forwarded-message marker list, in source order. -/
def markers : List String :=
  ["---------- Forwarded message ---------",
   "---------- Forwarded Message ----------",
   "---------- Forwarded message ----------",
   "---------- Пересланное сообщение ---------",
   "---------- Пересылаемое сообщение ---------"]

/-- Rewrite of one maximal whitespace run for
`replace(/\n\s*\n\s*\n+/g, '\n\n')`: a run containing at least three
newlines has the segment from its first through its last newline replaced by
two newlines (that segment is exactly the regex match: the match must start
and end with a newline and the quantifiers are greedy); other runs are kept
verbatim. -/
def collapseRun (run : List Char) : List Char :=
  if 3 ≤ run.count '\n' then
    run.takeWhile (fun d => d != '\n') ++
      '\n' :: '\n' :: (run.reverse.takeWhile (fun d => d != '\n')).reverse
  else run

/-- Scanner for `replace(/\n\s*\n\s*\n+/g, '\n\n')`: processes each maximal
whitespace run with `collapseRun`.  The fuel argument (initialised to the
list length, an upper bound on the number of runs) only discharges
termination; the `0` case is unreachable. -/
def collapseBlankGo : Nat → List Char → List Char
  | _, [] => []
  | 0, l => l
  | fuel + 1, c :: rest =>
    if isSpaceJS c then
      collapseRun ((c :: rest).takeWhile isSpaceJS) ++
        collapseBlankGo fuel ((c :: rest).dropWhile isSpaceJS)
    else c :: collapseBlankGo fuel rest

/-- Normalisation step 1: `textBefore.replace(/\n\s*\n\s*\n+/g, '\n\n')`. -/
def collapseBlankLines (l : List Char) : List Char :=
  collapseBlankGo l.length l

/-- The negated character class `[^\.\,\:\;\!\?\n]` of normalisation
step 2. -/
def isPunctOrNl (c : Char) : Bool :=
  c == '.' || c == ',' || c == ':' || c == ';' || c == '!' || c == '?' || c == '\n'

/-- The class `[a-zа-яё]` under the `i` flag of normalisation step 2. -/
def isWordLetter (c : Char) : Bool :=
  decide ('a' ≤ c ∧ c ≤ 'z') || decide ('A' ≤ c ∧ c ≤ 'Z') ||
  decide ('а' ≤ c ∧ c ≤ 'я') || decide ('А' ≤ c ∧ c ≤ 'Я') ||
  c == 'ё' || c == 'Ё'

/-- Normalisation step 2:
`replace(/([^\.\,\:\;\!\?\n])\n([a-zа-яё])/gi, '$1 $2')` — a newline between
a non-punctuation character and a letter becomes a space; scanning resumes
after the three matched characters. -/
def joinWrappedLines : List Char → List Char
  | [] => []
  | [a] => [a]
  | [a, b] => a :: joinWrappedLines [b]
  | a :: nl :: b :: rest2 =>
    if !(isPunctOrNl a) && nl == '\n' && isWordLetter b then
      a :: ' ' :: b :: joinWrappedLines rest2
    else a :: joinWrappedLines (nl :: b :: rest2)

/-- Normalisation step 3: `replace(/\n\s+/g, '\n')` as a scanner; the flag
records that the previous character was an emitted newline whose following
whitespace run is being absorbed. -/
def trimLineStartsGo (afterNl : Bool) : List Char → List Char
  | [] => []
  | c :: rest =>
    if afterNl && isSpaceJS c then trimLineStartsGo true rest
    else if c == '\n' then '\n' :: trimLineStartsGo true rest
    else c :: trimLineStartsGo false rest

/-- Normalisation step 4: `replace(/\s{2,}/g, ' ')` as a scanner; a
whitespace run of length at least two becomes one space, a single whitespace
character is kept verbatim. -/
def collapseSpacesGo (eating : Bool) : List Char → List Char
  | [] => []
  | c :: rest =>
    if eating && isSpaceJS c then collapseSpacesGo true rest
    else if isSpaceJS c && (match rest with | d :: _ => isSpaceJS d | [] => false) then
      ' ' :: collapseSpacesGo true rest
    else c :: collapseSpacesGo false rest

/-- The four normalisation steps applied to the text before the marker, in
source order. -/
def normalizeForwardedText (l : List Char) : List Char :=
  collapseSpacesGo false (trimLineStartsGo false (joinWrappedLines (collapseBlankLines l)))

/-- The first marker of the fixed list (in list order) that occurs in the
body text. -/
def markersFind (t : String) : Option String :=
  markers.find? (fun m => seqIn m.data t.data)

/-- `extractForwardedText(mail)` from emailService.js: `null` without a
(truthy) plain-text body; otherwise the first marker in list order that the
text `includes` is selected, the trimmed text before its first occurrence is
taken (`split(marker)[0].trim()`), an empty result yields `null` (the loop
breaks), and a non-empty result is returned normalised. -/
def extractForwardedText (text : Option String) : Option String :=
  match text with
  | none => none
  | some t =>
    if t = "" then none
    else
      match markersFind t with
      | none => none
      | some m =>
        let before := trimJS (textBeforeFirst m.data t.data)
        if before = [] then none
        else some (String.mk (normalizeForwardedText before))

/-- Index of the first occurrence of `pat` in a character list. -/
def indexOfSeq (pat : List Char) : List Char → Option Nat
  | [] => if pat.isEmpty then some 0 else none
  | c :: rest =>
    if pat.isPrefixOf (c :: rest) then some 0
    else (indexOfSeq pat rest).map (· + 1)

/-- The marker whose first occurrence in the text comes earliest (ties broken
by list order) — the reading of "the first such marker" in claim C5.
Written from the claim, for comparison with `extractForwardedText`. -/
def firstMarkerByPosition (t : String) : Option String :=
  ((markers.filterMap (fun m => (indexOfSeq m.data t.data).map (fun i => (i, m)))).foldl
    (fun acc im =>
      match acc with
      | none => some im
      | some jm => if im.1 < jm.1 then some im else some jm)
    none).map (fun im => im.2)

/-! ## src/utils/pdfConverter.js: rendering functions -/

/-- One entry of a `from`/`to`/`cc` address list: mail-parser yields either a
plain string or a record with `name`/`address`. -/
inductive AddressEntry where
  | plain (s : String)
  | record (name : Option String) (address : String)

/-- `recipient.name ? `${name} <${address}>` : recipient.address` (JS
truthiness: an empty name counts as absent). -/
def formatAddressEntry : AddressEntry → String
  | .plain s => s
  | .record name addr =>
    match name with
    | some n => if n = "" then addr else n ++ " <" ++ addr ++ ">"
    | none => addr

/-- The union type of `email.from` accepted by `formatSender`. -/
inductive SenderField where
  | absent
  | str (s : String)
  | record (name : Option String) (address : String)
  | list (l : List AddressEntry)

/-- `formatSender(from)` from pdfConverter.js: falsy input gives `Unknown`; a
string is returned verbatim (an empty string is falsy and gives `Unknown`); a
record needs a truthy `address`; for an array the first element is formatted;
everything else gives `Unknown`. -/
def formatSender : SenderField → String
  | .absent => "Unknown"
  | .str s => if s = "" then "Unknown" else s
  | .record name addr =>
    if addr = "" then "Unknown" else formatAddressEntry (.record name addr)
  | .list l =>
    match l with
    | [] => "Unknown"
    | e :: _ => formatAddressEntry e

/-- The union type of `email.to`/`email.cc` accepted by
`formatRecipients`. -/
inductive RecipientsField where
  | absent
  | str (s : String)
  | list (l : List AddressEntry)

/-- `formatRecipients(recipients)` from pdfConverter.js. -/
def formatRecipients : RecipientsField → String
  | .absent => ""
  | .str s => s
  | .list l => String.intercalate ", " (l.map formatAddressEntry)

/-- One attachment as consumed by the attachment list of the HTML renderer
(`fileName` and `length`; the content bytes play no role in the rendered
text). -/
structure AttachmentInfo where
  fileName : Option String
  byteLength : Nat

/-- `formatBytes` of the source uses floating-point `Math.log`/`Math.pow`
with two-decimal rounding; it is modelled with integer arithmetic (the size
caption of an attachment line is irrelevant to every claim). -/
def formatBytes (bytes : Nat) : String :=
  if bytes = 0 then "0 Bytes"
  else
    let i := Nat.log 1024 bytes
    toString (bytes / 1024 ^ i) ++ " " ++
      (["Bytes", "KB", "MB", "GB", "TB"].getD i "")

/-- A parsed email as consumed by the two rendering functions.  `dateStr`
stands for the output of `new Date(email.date || Date.now()).toLocaleString()`
(a formatted date, not raw header text). -/
structure EmailDoc where
  subject : Option String
  fromField : SenderField
  toField : RecipientsField
  ccField : RecipientsField
  dateStr : String
  htmlBody : Option String
  textBody : Option String
  attachments : List AttachmentInfo

/-- `email.text || ''`. -/
def textOrEmpty (e : EmailDoc) : String :=
  match e.textBody with
  | some t => t
  | none => ""

/-- `c ↦ repl` applied globally, the effect of a JS
`replace(/c/g, repl)` for a single character `c`. -/
def replaceCharL (target : Char) (repl : List Char) (l : List Char) : List Char :=
  l.flatMap (fun c => if c = target then repl else [c])

/-- The five sequential replacements of `escapeHtml` at the character-list
level, in source order (`&` first, so later entities are not re-escaped). -/
def escapeHtmlL (l : List Char) : List Char :=
  replaceCharL (Char.ofNat 39) "&#039;".data
    (replaceCharL '"' "&quot;".data
      (replaceCharL '>' "&gt;".data
        (replaceCharL '<' "&lt;".data
          (replaceCharL '&' "&amp;".data l))))

/-- `escapeHtml(text)` from pdfConverter.js (`if (!text) return ''` then the
five chained replaces). -/
def escapeHtml (s : String) : String :=
  if s = "" then "" else String.mk (escapeHtmlL s.data)

/-- `replace(/\n/g, '<br>')`. -/
def newlinesToBr (l : List Char) : List Char :=
  l.flatMap (fun c => if c = '\n' then "<br>".data else [c])

/-- The body of the rich rendering:
`email.html || escapeHtml(email.text || '').replace(/\n/g, '<br>')`. -/
def emailBodyBlock (e : EmailDoc) : String :=
  match e.htmlBody with
  | some h =>
    if h = "" then String.mk (newlinesToBr (escapeHtml (textOrEmpty e)).data) else h
  | none => String.mk (newlinesToBr (escapeHtml (textOrEmpty e)).data)

/-- One `<li>` of the attachment list:
`` `<li>${att.fileName || 'Attachment'} (${formatBytes(att.length || 0)})</li>` ``. -/
def attachmentItem (att : AttachmentInfo) : String :=
  "<li>" ++
    (match att.fileName with
     | some n => if n = "" then "Attachment" else n
     | none => "Attachment") ++
    " (" ++ formatBytes att.byteLength ++ ")</li>"

/-- `attachments.map(...).join('')`. -/
def attachmentsListStr (l : List AttachmentInfo) : String :=
  String.join (l.map attachmentItem)

/-- JS truthiness of `email.cc` (an empty string is falsy, an array — even an
empty one — is truthy). -/
def ccTruthy : RecipientsField → Bool
  | .absent => false
  | .str s => s != ""
  | .list _ => true

/-- Literal chunk of the `createEmailHtml` template before the `<title>`
interpolation. -/
def htmlLit1 : String :=
  "\n    <!DOCTYPE html>\n    <html>\n    <head>\n      <meta charset=\"utf-8\">\n      <title>"

/-- Literal chunk between the `<title>` and `<h1>` interpolations (the page
CSS). -/
def htmlLit2 : String :=
  "</title>\n      <style>\n        body \x7b\n          font-family: Arial, sans-serif;\n          line-height: 1.6;\n          margin: 0;\n          padding: 20px;\n          color: #333;\n        \x7d\n        .email-container \x7b\n          max-width: 800px;\n          margin: 0 auto;\n          border: 1px solid #ddd;\n          border-radius: 5px;\n          overflow: hidden;\n        \x7d\n        .email-header \x7b\n          background-color: #f5f5f5;\n          padding: 15px;\n          border-bottom: 1px solid #ddd;\n        \x7d\n        .email-subject \x7b\n          margin: 0 0 10px 0;\n          font-size: 20px;\n          color: #333;\n        \x7d\n        .email-meta \x7b\n          font-size: 14px;\n          color: #666;\n          margin-bottom: 5px;\n        \x7d\n        .email-body \x7b\n          padding: 20px;\n          background-color: white;\n        \x7d\n        .email-attachments \x7b\n          padding: 15px;\n          background-color: #f9f9f9;\n          border-top: 1px solid #ddd;\n        \x7d\n        .email-attachments h4 \x7b\n          margin-top: 0;\n        \x7d\n      </style>\n    </head>\n    <body>\n      <div class=\"email-container\">\n        <div class=\"email-header\">\n          <h1 class=\"email-subject\">"

/-- Literal chunk before the From interpolation. -/
def htmlLit3 : String :=
  "</h1>\n          <div class=\"email-meta\">\n            <strong>From:</strong> "

/-- Literal chunk before the To interpolation. -/
def htmlLit4 : String :=
  "\n          </div>\n          <div class=\"email-meta\">\n            <strong>To:</strong> "

/-- Literal chunk before the conditional Cc block. -/
def htmlLit5 : String :=
  "\n          </div>\n          "

/-- Literal chunk before the Date interpolation. -/
def htmlLit6 : String :=
  "\n          <div class=\"email-meta\">\n            <strong>Date:</strong> "

/-- Literal chunk before the body interpolation. -/
def htmlLit7 : String :=
  "\n          </div>\n        </div>\n        <div class=\"email-body\">\n          "

/-- Literal chunk before the conditional attachments block. -/
def htmlLit8 : String :=
  "\n        </div>\n        "

/-- Closing literal chunk. -/
def htmlLit9 : String :=
  "\n      </div>\n    </body>\n    </html>\n  "

/-- Opening of the conditional Cc block. -/
def ccLit1 : String :=
  "<div class=\"email-meta\"><strong>Cc:</strong> "

/-- Closing of the conditional Cc block. -/
def ccLit2 : String :=
  "</div>"

/-- Opening of the conditional attachments block. -/
def attachLit1 : String :=
  "\n        <div class=\"email-attachments\">\n          <h4>Attachments ("

/-- Middle of the attachments block, before the `<li>` list. -/
def attachLit2 : String :=
  "):</h4>\n          <ul>"

/-- Closing of the attachments block. -/
def attachLit3 : String :=
  "</ul>\n        </div>"

/-- `${email.cc ? `...` : ''}` of `createEmailHtml`. -/
def ccBlock (e : EmailDoc) : String :=
  if ccTruthy e.ccField
  then ccLit1 ++ escapeHtml (formatRecipients e.ccField) ++ ccLit2
  else ""

/-- `${attachments.length > 0 ? `...` : ''}` of `createEmailHtml`. -/
def attachBlock (e : EmailDoc) : String :=
  if 0 < e.attachments.length
  then attachLit1 ++ toString e.attachments.length ++ attachLit2 ++
    attachmentsListStr e.attachments ++ attachLit3
  else ""

/-- `createEmailHtml(email)` from pdfConverter.js: the template literal is
the alternation of its literal chunks with the interpolated expressions, each
header field passing through `escapeHtml`. -/
def createEmailHtml (e : EmailDoc) : String :=
  htmlLit1 ++ escapeHtml (subjectOrDefault e.subject) ++
  htmlLit2 ++ escapeHtml (subjectOrDefault e.subject) ++
  htmlLit3 ++ escapeHtml (formatSender e.fromField) ++
  htmlLit4 ++ escapeHtml (formatRecipients e.toField) ++
  htmlLit5 ++ ccBlock e ++
  htmlLit6 ++ e.dateStr ++
  htmlLit7 ++ emailBodyBlock e ++
  htmlLit8 ++ attachBlock e ++ htmlLit9

/-- Literal chunks of the `createSimpleTextEmail` template. -/
def simpleLit1 : String :=
  "\n    <!DOCTYPE html>\n    <html>\n    <head>\n      <meta charset=\"utf-8\">\n      <title>"

/-- CSS chunk of the fallback template, between title and `<h2>`. -/
def simpleLit2 : String :=
  "</title>\n      <style>\n        body \x7b font-family: Arial, sans-serif; padding: 20px; \x7d\n        pre \x7b white-space: pre-wrap; \x7d\n      </style>\n    </head>\n    <body>\n      <h2>"

/-- Fallback chunk before From. -/
def simpleLit3 : String :=
  "</h2>\n      <p><strong>From:</strong> "

/-- Fallback chunk before To. -/
def simpleLit4 : String :=
  "</p>\n      <p><strong>To:</strong> "

/-- Fallback chunk before Date. -/
def simpleLit5 : String :=
  "</p>\n      <p><strong>Date:</strong> "

/-- Fallback chunk before the `<pre>` body. -/
def simpleLit6 : String :=
  "</p>\n      <hr>\n      <pre>"

/-- Fallback closing chunk. -/
def simpleLit7 : String :=
  "</pre>\n    </body>\n    </html>\n  "

/-- `createSimpleTextEmail(email)` from pdfConverter.js (the fallback
rendering): subject, from, to and the plain-text body are interpolated
through `escapeHtml`. -/
def createSimpleTextEmail (e : EmailDoc) : String :=
  simpleLit1 ++ escapeHtml (subjectOrDefault e.subject) ++
  simpleLit2 ++ escapeHtml (subjectOrDefault e.subject) ++
  simpleLit3 ++ escapeHtml (formatSender e.fromField) ++
  simpleLit4 ++ escapeHtml (formatRecipients e.toField) ++
  simpleLit5 ++ e.dateStr ++
  simpleLit6 ++ escapeHtml (textOrEmpty e) ++ simpleLit7

/-! ## src/utils/fileUtils.js -/

/-- Outcome of the `fs.unlink` callback: success, `ENOENT`, or another
error. -/
inductive UnlinkOutcome where
  | ok
  | missing
  | errored (msg : String)
deriving DecidableEq

/-- `deleteFile(filePath)` from fileUtils.js given the unlink outcome: a
missing file (`ENOENT`) is considered already deleted and resolves `true`;
any other error rejects. -/
def deleteFile (r : UnlinkOutcome) : Except String Bool :=
  match r with
  | .ok => .ok true
  | .missing => .ok true
  | .errored e => .error e

/-- Whether the modelled unlink outcome is a genuine error (not `ENOENT`). -/
def unlinkFails : UnlinkOutcome → Bool
  | .errored _ => true
  | _ => false

/-- A file of the uploads directory as seen by the sweep: name, `mtimeMs`
stat, and what `fs.unlink` would report for it. -/
structure StoredFile where
  name : String
  mtimeMs : Int
  unlink : UnlinkOutcome
deriving DecidableEq

/-- The per-file loop of `cleanupOldFiles`: a file whose age strictly exceeds
`maxAge` is deleted and counted; a failing delete is caught, logged and
skipped without aborting the sweep.  Returns the count and (as a ghost
output for specification purposes) the deleted files. -/
def cleanupLoop (maxAge now : Int) : List StoredFile → Nat × List StoredFile
  | [] => (0, [])
  | f :: rest =>
    let acc := cleanupLoop maxAge now rest
    if now - f.mtimeMs > maxAge then
      match deleteFile f.unlink with
      | .ok _ => (acc.1 + 1, f :: acc.2)
      | .error _ => acc
    else acc

/-- `cleanupOldFiles(maxAgeHours)` from fileUtils.js, with the clock and the
directory listing passed explicitly:
`maxAge = maxAgeHours * 60 * 60 * 1000`, `fileAge = now - stats.mtimeMs`,
delete when `fileAge > maxAge`. -/
def cleanupOldFiles (maxAgeHours now : Int) (files : List StoredFile) :
    Nat × List StoredFile :=
  cleanupLoop (maxAgeHours * 60 * 60 * 1000) now files

/-! ## Concrete inputs used by witnesses and counterexamples -/

/-- The forwarded-body scenario text of the specification. -/
def demoForwardBody : String :=
  "Hi team\n\n---------- Forwarded message ---------\n..."

/-- A body in which the marker that occurs first in the text (capital-M
variant) differs from the marker chosen by the source loop (the first marker
in list order). -/
def demoTwoMarkerBody : String :=
  "A\n\n---------- Forwarded Message ----------\nB ---------- Forwarded message ---------\nC"

/-- Routing settings whose wildcard key is stored with an upper-case
domain. -/
def demoUpperSettings : TopicSettings :=
  ⟨none, [("*@EXAMPLE.COM", 5)]⟩

/-- Routing settings with an exact entry and a wildcard entry for the same
sender, plus a default. -/
def demoSettings : TopicSettings :=
  ⟨some 7, [("alice@example.com", 42), ("*@example.com", 9)]⟩

/-- A delivery sink that rejects every scoped request with the Telegram
"message thread not found" error. -/
def demoSend : DeliveryRequest → SendOutcome :=
  fun r =>
    match r.messageThreadId with
    | some _ => .failed "Bad Request: message thread not found"
    | none => .delivered

/-- A delivery request scoped to sub-channel 99. -/
def demoRequest : DeliveryRequest :=
  { chatId := "-100123", filename := "email_1.pdf",
    caption := "Email от bob@x.com: Hello", messageThreadId := some 99 }

/-- A concrete parsed email for witness instantiations. -/
def demoEmail : EmailDoc :=
  { subject := some "Hello <b>there</b>"
    fromField := .record (some "Bob") "bob@x.com"
    toField := .str "team@x.com"
    ccField := .str "carol@x.com"
    dateStr := "1/1/2025, 10:00:00 AM"
    htmlBody := none
    textBody := some "Hi"
    attachments := [] }

/-- The retention-sweep scenario files: ages one hour and thirty hours at a
clock of thirty hours. -/
def demoFiles : List StoredFile :=
  [⟨"young.pdf", 29 * 3600000, .ok⟩, ⟨"old.pdf", 0, .ok⟩]

/-- A primary render stage that always raises. -/
def demoPrimaryFail : EmailDoc → Except String (List Nat) :=
  fun _ => .error "Error generating PDF"

/-- A fallback render stage that always raises. -/
def demoFallbackFail : EmailDoc → Except String (List Nat) :=
  fun _ => .error "Fallback PDF generation failed"

/-- A body whose text before the (first applicable) marker is
whitespace-only. -/
def demoEmptyCommentBody : String :=
  "   \n---------- Forwarded message ---------\nrest"

/-! ### Characterisation lemmas for `split('@')` -/

theorem splitAux_cons_self (sep : Char) (rest : List Char) :
    splitAux sep (sep :: rest) =
      ([], (splitAux sep rest).1 :: (splitAux sep rest).2) := by
  simp [splitAux]

theorem splitAux_cons_ne (sep c : Char) (rest : List Char) (hc : ¬ c = sep) :
    splitAux sep (c :: rest) =
      (c :: (splitAux sep rest).1, (splitAux sep rest).2) := by
  simp [splitAux, hc]

theorem splitAux_snd_nil_iff (sep : Char) (l : List Char) :
    (splitAux sep l).2 = [] ↔ sep ∉ l := by
  induction l with
  | nil => simp [splitAux]
  | cons c rest ih =>
    by_cases hc : c = sep
    · subst hc
      simp [splitAux]
    · have hcs : ¬ sep = c := fun h => hc h.symm
      simp only [splitAux, if_neg hc]
      rw [ih]
      simp [List.mem_cons, hcs]

theorem splitAux_fst_of_not_mem (sep : Char) (l : List Char) (h : sep ∉ l) :
    (splitAux sep l).1 = l := by
  induction l with
  | nil => rfl
  | cons c rest ih =>
    have hc : ¬ c = sep := by
      intro hcc
      exact h (by rw [hcc]; exact List.mem_cons_self _ _)
    simp only [splitAux, if_neg hc]
    rw [ih (fun hm => h (List.mem_cons_of_mem _ hm))]

theorem splitAux_eq_pair_nil_iff (sep : Char) (l b : List Char) :
    splitAux sep l = (b, []) ↔ l = b ∧ sep ∉ l := by
  constructor
  · intro h
    have h2 : (splitAux sep l).2 = [] := by rw [h]
    have hm := (splitAux_snd_nil_iff sep l).mp h2
    have h1 := splitAux_fst_of_not_mem sep l hm
    rw [h] at h1
    exact ⟨h1.symm, hm⟩
  · rintro ⟨rfl, hm⟩
    exact Prod.ext_iff.mpr
      ⟨splitAux_fst_of_not_mem sep l hm, (splitAux_snd_nil_iff sep l).mpr hm⟩

theorem splitAux_pair_iff (sep : Char) (b : List Char) :
    ∀ l a : List Char,
      splitAux sep l = (a, [b]) ↔ l = a ++ sep :: b ∧ sep ∉ a ∧ sep ∉ b := by
  intro l
  induction l with
  | nil =>
    intro a
    constructor
    · intro h
      simp [splitAux, Prod.ext_iff] at h
    · rintro ⟨h, -, -⟩
      exact absurd h (by simp)
  | cons c rest ih =>
    intro a
    by_cases hc : c = sep
    · subst hc
      constructor
      · intro h
        rw [splitAux_cons_self] at h
        injection h with ha hb
        injection hb with hb1 hb2
        obtain ⟨hr, hm⟩ := (splitAux_eq_pair_nil_iff c rest b).mp
          (Prod.ext_iff.mpr ⟨hb1, hb2⟩)
        subst ha
        refine ⟨congrArg (List.cons c) hr, by simp, ?_⟩
        rw [← hr]; exact hm
      · rintro ⟨hl, hna, hnb⟩
        cases a with
        | nil =>
          simp only [List.nil_append] at hl
          obtain ⟨-, hrb⟩ := List.cons_eq_cons.mp hl
          subst hrb
          have hpair := (splitAux_eq_pair_nil_iff c rest rest).mpr ⟨rfl, hnb⟩
          rw [splitAux_cons_self, hpair]
        | cons a0 a' =>
          exfalso
          obtain ⟨hca, -⟩ := List.cons_eq_cons.mp hl
          exact hna (by rw [← hca]; exact List.mem_cons_self _ _)
    · constructor
      · intro h
        rw [splitAux_cons_ne _ _ _ hc] at h
        injection h with h1 h2
        obtain ⟨hr, hn1, hnb⟩ := (ih (splitAux sep rest).1).mp
          (Prod.ext_iff.mpr ⟨rfl, h2⟩)
        subst h1
        refine ⟨congrArg (List.cons c) hr, ?_, hnb⟩
        intro hm
        rcases List.mem_cons.mp hm with h' | h'
        · exact hc h'.symm
        · exact hn1 h'
      · rintro ⟨hl, hna, hnb⟩
        cases a with
        | nil =>
          exact absurd (List.cons_eq_cons.mp (by simpa using hl)).1 hc
        | cons a0 a' =>
          obtain ⟨hca, hrest⟩ := List.cons_eq_cons.mp hl
          have hna' : sep ∉ a' := fun hm => hna (List.mem_cons_of_mem _ hm)
          have hres := (ih a').mpr ⟨hrest, hna', hnb⟩
          rw [splitAux_cons_ne _ _ _ hc, hres, hca]

theorem splitOnCharL_pair_iff (sep : Char) (l a b : List Char) :
    splitOnCharL sep l = [a, b] ↔ l = a ++ sep :: b ∧ sep ∉ a ∧ sep ∉ b := by
  unfold splitOnCharL
  constructor
  · intro h
    obtain ⟨h1, h2⟩ := List.cons_eq_cons.mp h
    exact (splitAux_pair_iff sep b l a).mp (Prod.ext_iff.mpr ⟨h1, h2⟩)
  · intro h
    have := (splitAux_pair_iff sep b l a).mpr h
    rw [this]

/-! ### Claim C1: allow-list characterisation -/

theorem isDomainWildcard_iff (p : String) :
    isDomainWildcard p = true ↔ ∃ pd, p.data = '*' :: '@' :: pd ∧ '@' ∉ pd := by
  unfold isDomainWildcard
  rw [Bool.and_eq_true, beq_iff_eq]
  constructor
  · rintro ⟨hpre, hlen⟩
    have hp : ['*', '@'] <+: p.data :=
      List.isPrefixOf_iff_prefix.mp hpre
    obtain ⟨t, ht⟩ := hp
    refine ⟨t, ht.symm, ?_⟩
    rw [← ht] at hlen
    have hsplit : splitOnCharL '@' ('*' :: '@' :: t) =
        ['*'] :: (splitAux '@' t).1 :: (splitAux '@' t).2 := rfl
    rw [show (['*', '@'] ++ t : List Char) = '*' :: '@' :: t from rfl,
      hsplit] at hlen
    simp only [List.length_cons] at hlen
    have : (splitAux '@' t).2.length = 0 := by omega
    exact (splitAux_snd_nil_iff '@' t).mp (List.length_eq_zero.mp this)
  · rintro ⟨pd, hp, hnm⟩
    constructor
    · rw [hp]
      simp [List.isPrefixOf]
    · rw [hp]
      have hsplit : splitOnCharL '@' ('*' :: '@' :: pd) =
          ['*'] :: (splitAux '@' pd).1 :: (splitAux '@' pd).2 := rfl
      rw [hsplit, (splitAux_snd_nil_iff '@' pd).mpr hnm]
      rfl

theorem matchesDomainWildcard_iff (email p : String) :
    matchesDomainWildcard email p = true ↔
      ∃ pd, p.data = '*' :: '@' :: pd ∧ '@' ∉ pd ∧
        ∃ l d, email.data = l ++ '@' :: d ∧ '@' ∉ l ∧ '@' ∉ d ∧
          lowerL pd = lowerL d := by
  constructor
  · intro h
    unfold matchesDomainWildcard at h
    split at h
    · exact absurd h (by simp)
    · rename_i hguard
      push_neg at hguard
      obtain ⟨-, -, hwild⟩ := hguard
      have hwild' : isDomainWildcard p = true := by
        cases hbool : isDomainWildcard p
        · exact absurd hbool hwild
        · rfl
      obtain ⟨pd, hp, hnm⟩ := (isDomainWildcard_iff p).mp hwild'
      -- the match in `h` must have hit the two-element case
      rcases hsp : splitOnCharL '@' email.data with - | ⟨l1, tl⟩
      · rw [hsp] at h; exact absurd h (by simp)
      · rcases tl with - | ⟨d, tl2⟩
        · rw [hsp] at h; exact absurd h (by simp)
        · rcases tl2 with - | ⟨x, tl3⟩
          · rw [hsp] at h
            simp only [decide_eq_true_eq] at h
            obtain ⟨he, hnl, hnd⟩ := (splitOnCharL_pair_iff '@' email.data l1 d).mp hsp
            refine ⟨pd, hp, hnm, l1, d, he, hnl, hnd, ?_⟩
            have hpd1 : (splitAux '@' pd).1 = pd := splitAux_fst_of_not_mem '@' pd hnm
            have hpd2 : (splitAux '@' pd).2 = [] := (splitAux_snd_nil_iff '@' pd).mpr hnm
            have hps : splitOnCharL '@' p.data = [['*'], pd] := by
              rw [hp]
              show ['*'] :: (splitAux '@' pd).1 :: (splitAux '@' pd).2 = [['*'], pd]
              rw [hpd1, hpd2]
            rw [hps] at h
            exact h
          · rw [hsp] at h; exact absurd h (by simp)
  · rintro ⟨pd, hp, hnm, l, d, he, hnl, hnd, heq⟩
    unfold matchesDomainWildcard
    have hwild : isDomainWildcard p = true :=
      (isDomainWildcard_iff p).mpr ⟨pd, hp, hnm⟩
    have hemail : email.data ≠ [] := by
      rw [he]; cases l <;> simp
    have hpat : p.data ≠ [] := by rw [hp]; simp
    rw [if_neg (by simp [hemail, hpat, hwild])]
    have hsp : splitOnCharL '@' email.data = [l, d] :=
      (splitOnCharL_pair_iff '@' email.data l d).mpr ⟨he, hnl, hnd⟩
    rw [hsp]
    have hpd1 : (splitAux '@' pd).1 = pd := splitAux_fst_of_not_mem '@' pd hnm
    have hpd2 : (splitAux '@' pd).2 = [] := (splitAux_snd_nil_iff '@' pd).mpr hnm
    have hps : splitOnCharL '@' p.data = [['*'], pd] := by
      rw [hp]
      show ['*'] :: (splitAux '@' pd).1 :: (splitAux '@' pd).2 = [['*'], pd]
      rw [hpd1, hpd2]
    rw [hps]
    simpa using heq

/-- C1: `isWhitelisted(S)` is true exactly when the allow-list is empty, S is
an exact element of the list, or some wildcard-domain entry `*@domain` has a
domain equal to the domain of S under case-insensitive comparison; a sender
matching nothing is skipped by the intake gate with no further processing. -/
theorem C1_allowlist_characterization (wl : List String) (email : String) :
    (isWhitelisted wl email = true ↔
      wl = [] ∨ email ∈ wl ∨
        ∃ p ∈ wl, ∃ pd, p.data = '*' :: '@' :: pd ∧ '@' ∉ pd ∧
          ∃ l d, email.data = l ++ '@' :: d ∧ '@' ∉ l ∧ '@' ∉ d ∧
            lowerL pd = lowerL d) ∧
    (intakeGate wl email = none ↔ isWhitelisted wl email = false) := by
  constructor
  · unfold isWhitelisted
    by_cases h0 : wl = []
    · subst h0
      simp
    · have hne : wl.isEmpty = false := by
        cases wl with
        | nil => exact absurd rfl h0
        | cons a t => rfl
      rw [hne]
      by_cases h1 : email ∈ wl
      · have hc : wl.contains email = true := List.elem_iff.mpr h1
        rw [hc]
        simp [h1]
      · have hc : wl.contains email = false := by
          cases hb : wl.contains email
          · rfl
          · exact absurd (List.elem_iff.mp hb) h1
        rw [hc]
        simp only [Bool.false_eq_true, if_false, List.any_eq_true]
        constructor
        · rintro ⟨p, hpmem, hpm⟩
          obtain ⟨hpwl, -⟩ := List.mem_filter.mp hpmem
          obtain ⟨pd, hp, hnm, l, d, he, hnl, hnd, heq⟩ :=
            (matchesDomainWildcard_iff email p).mp hpm
          exact Or.inr (Or.inr ⟨p, hpwl, pd, hp, hnm, l, d, he, hnl, hnd, heq⟩)
        · rintro (rfl | hmem | ⟨p, hpwl, pd, hp, hnm, l, d, he, hnl, hnd, heq⟩)
          · exact absurd rfl h0
          · exact absurd hmem h1
          · refine ⟨p, List.mem_filter.mpr ⟨hpwl, ?_⟩, ?_⟩
            · exact (isDomainWildcard_iff p).mpr ⟨pd, hp, hnm⟩
            · exact (matchesDomainWildcard_iff email p).mpr
                ⟨pd, hp, hnm, l, d, he, hnl, hnd, heq⟩
  · unfold intakeGate
    by_cases h : isWhitelisted wl email <;> simp [h]

/-! ### Claim C2: routing resolution -/

theorem str_data_eq_nil_iff (s : String) : s.data = [] ↔ s = "" := by
  cases s with
  | mk d =>
    constructor
    · intro h
      have hd : d = [] := h
      subst hd
      rfl
    · intro h
      exact congrArg String.data h

/-- C2 (counterexample): with the wildcard key stored as `*@EXAMPLE.COM`, the
claim's case-insensitive wildcard rule resolves `a@example.com` to 5, but
`getTopicForEmail` matches mapping keys verbatim (only the sender is
lower-cased) and yields no destination. -/
theorem C2_counterexample :
    resolveDestinationClaim demoUpperSettings "a@example.com" = some 5 ∧
    getTopicForEmail demoUpperSettings "a@example.com" = none := by
  decide

/-- C2 (amended): resolution order of `getTopicForEmail` — the empty sender
returns the default; the mapping for the lower-cased sender wins when its key
is present (even when a wildcard entry also applies); otherwise the mapping
stored under the verbatim key `*@d` for the lower-cased sender domain `d`;
otherwise the configured default (which may be none). -/
theorem C2_routing_resolution (st : TopicSettings) (s : String) (t : Int) :
    (getTopicForEmail st "" = st.defaultTopic) ∧
    (s ≠ "" → st.topicMappings.lookup (toLowerStr s) = some t →
      getTopicForEmail st s = some t) ∧
    (s ≠ "" → st.topicMappings.lookup (toLowerStr s) = none →
      2 ≤ (splitOnCharL '@' (toLowerStr s).data).length →
      senderDomainL (toLowerStr s) ≠ [] →
      st.topicMappings.lookup
        (String.mk ('*' :: '@' :: senderDomainL (toLowerStr s))) = some t →
      getTopicForEmail st s = some t) ∧
    (s ≠ "" → st.topicMappings.lookup (toLowerStr s) = none →
      st.topicMappings.lookup
        (String.mk ('*' :: '@' :: senderDomainL (toLowerStr s))) = none →
      getTopicForEmail st s = st.defaultTopic) := by
  have hdata : s ≠ "" → ¬ s.data = [] :=
    fun hs h => hs ((str_data_eq_nil_iff s).mp h)
  refine ⟨rfl, ?_, ?_, ?_⟩
  · intro hs hl
    unfold getTopicForEmail
    rw [if_neg (hdata hs), hl]
  · intro hs hl hlen hdom hw
    unfold getTopicForEmail
    rw [if_neg (hdata hs), hl]
    have hsplit : ∃ x0 x1 xs,
        splitOnCharL '@' (toLowerStr s).data = x0 :: x1 :: xs := by
      rcases h : splitOnCharL '@' (toLowerStr s).data with - | ⟨a, - | ⟨b, c⟩⟩
      · rw [h] at hlen; simp at hlen
      · rw [h] at hlen; simp at hlen
      · exact ⟨a, b, c, rfl⟩
    obtain ⟨x0, x1, xs, hsp⟩ := hsplit
    have hx1 : senderDomainL (toLowerStr s) = x1 := by
      rw [senderDomainL, hsp]; rfl
    rw [hx1] at hdom hw
    rw [hsp]
    simp [hdom, hw]
  · intro hs hl hw
    unfold getTopicForEmail
    rw [if_neg (hdata hs), hl]
    rcases hsp : splitOnCharL '@' (toLowerStr s).data with - | ⟨x0, tl⟩
    · simp
    · rcases tl with - | ⟨x1, xs⟩
      · simp
      · have hx1 : senderDomainL (toLowerStr s) = x1 := by
          rw [senderDomainL, hsp]; rfl
        rw [hx1] at hw
        by_cases hx1nil : x1 = []
        · simp [hx1nil]
        · simp [hx1nil, hw]

/-- C2 (witness): with both an exact entry and a wildcard entry for
`alice@example.com` present, the exact entry wins for the mixed-case sender;
an unmapped sender falls back to the default sub-channel. -/
theorem C2_witness :
    getTopicForEmail demoSettings "Alice@Example.com" = some 42 ∧
    getTopicForEmail demoSettings "dan@x.com" = demoSettings.defaultTopic :=
  ⟨(C2_routing_resolution demoSettings "Alice@Example.com" 42).2.1
      (by decide) (by decide),
   (C2_routing_resolution demoSettings "dan@x.com" 0).2.2.2
      (by decide) (by decide) (by decide)⟩

/-! ### Claim C3: delivery retry on "message thread not found" -/

theorem sendAttempts_delivered (send : DeliveryRequest → SendOutcome)
    (req : DeliveryRequest) (h : send req = .delivered) :
    sendAttempts send req = [req] := by
  unfold sendAttempts; rw [h]

theorem sendAttempts_failed (send : DeliveryRequest → SendOutcome)
    (req : DeliveryRequest) (msg : String) (h : send req = .failed msg) :
    sendAttempts send req =
      if msg ≠ "" ∧ isThreadNotFoundMsg msg = true ∧
          threadIdTruthy req.messageThreadId = true
      then [req, withoutThread req] else [req] := by
  unfold sendAttempts; rw [h]

/-- C3: for a delivery attempt made with a sub-channel id set, exactly one
retry — with the sub-channel omitted and the destination chat, document name
and caption unchanged — happens if and only if the attempt fails with an
error containing "message thread not found"; a successful send or any other
failure yields a single attempt, and at most two attempts ever happen (the
outcome of the retry is only logged). -/
theorem C3_delivery_retry (send : DeliveryRequest → SendOutcome)
    (req : DeliveryRequest) (t : Int)
    (hset : req.messageThreadId = some t) (hpos : 0 < t) :
    ((sendAttempts send req).length = 2 ↔
      ∃ msg, send req = .failed msg ∧ isThreadNotFoundMsg msg = true) ∧
    (send req = .delivered → sendAttempts send req = [req]) ∧
    (∀ msg, send req = .failed msg → isThreadNotFoundMsg msg = false →
      sendAttempts send req = [req]) ∧
    (∀ msg, send req = .failed msg → isThreadNotFoundMsg msg = true →
      sendAttempts send req =
        [req, { chatId := req.chatId, filename := req.filename,
                caption := req.caption, messageThreadId := none }]) ∧
    (sendAttempts send req).length ≤ 2 := by
  have htr : threadIdTruthy req.messageThreadId = true := by
    rw [hset]
    simp only [threadIdTruthy, bne_iff_ne, ne_eq]
    omega
  have hempty : isThreadNotFoundMsg "" = false := by decide
  refine ⟨?_, ?_, ?_, ?_, ?_⟩
  · rcases hout : send req with - | msg
    · rw [sendAttempts_delivered send req hout]
      constructor
      · intro hlen; exact absurd hlen (by simp)
      · rintro ⟨msg2, hmsg2, -⟩
        exact absurd hmsg2 (by simp)
    · by_cases hnf : isThreadNotFoundMsg msg = true
      · have hmsgne : msg ≠ "" := by
          intro hmm; rw [hmm, hempty] at hnf; exact absurd hnf (by simp)
        have hcond : msg ≠ "" ∧ isThreadNotFoundMsg msg = true ∧
            threadIdTruthy req.messageThreadId = true := ⟨hmsgne, hnf, htr⟩
        rw [sendAttempts_failed send req msg hout, if_pos hcond]
        exact ⟨fun _ => ⟨msg, rfl, hnf⟩, fun _ => rfl⟩
      · have hcond : ¬ (msg ≠ "" ∧ isThreadNotFoundMsg msg = true ∧
            threadIdTruthy req.messageThreadId = true) := by
          rintro ⟨-, h2, -⟩; exact hnf h2
        rw [sendAttempts_failed send req msg hout, if_neg hcond]
        constructor
        · intro hlen; exact absurd hlen (by simp)
        · rintro ⟨msg2, hmsg2, hnf2⟩
          have hmm : msg = msg2 := by injection hmsg2
          rw [← hmm] at hnf2
          exact absurd hnf2 hnf
  · intro hdel
    exact sendAttempts_delivered send req hdel
  · intro msg hmsg hnf
    have hcond : ¬ (msg ≠ "" ∧ isThreadNotFoundMsg msg = true ∧
        threadIdTruthy req.messageThreadId = true) := by
      rintro ⟨-, h2, -⟩; rw [hnf] at h2; exact absurd h2 (by simp)
    rw [sendAttempts_failed send req msg hmsg, if_neg hcond]
  · intro msg hmsg hnf
    have hmsgne : msg ≠ "" := by
      intro hmm; rw [hmm, hempty] at hnf; exact absurd hnf (by simp)
    have hcond : msg ≠ "" ∧ isThreadNotFoundMsg msg = true ∧
        threadIdTruthy req.messageThreadId = true := ⟨hmsgne, hnf, htr⟩
    rw [sendAttempts_failed send req msg hmsg, if_pos hcond]
    rfl
  · rcases hout : send req with - | msg
    · rw [sendAttempts_delivered send req hout]; simp
    · rw [sendAttempts_failed send req msg hout]
      split
      · simp
      · simp

/-- C3 (witness): the demo sink rejects the scoped request with the Telegram
thread-not-found error, and exactly one retry without the sub-channel and
with every other field unchanged is issued. -/
theorem C3_witness :
    sendAttempts demoSend demoRequest =
      [demoRequest,
       { chatId := demoRequest.chatId, filename := demoRequest.filename,
         caption := demoRequest.caption, messageThreadId := none }] :=
  (C3_delivery_retry demoSend demoRequest 99 rfl (by decide)).2.2.2.1
    "Bad Request: message thread not found" rfl (by decide)

/-! ### Claim C4: render fallback strategy -/

/-- C4: the renderer attempts the primary rich-HTML path first; the
plain-text fallback is attempted exactly when the primary path raises; when
the fallback succeeds its output is returned, and when the fallback also
fails the error propagated is the original primary-path error. -/
theorem C4_render_fallback
    (primaryRender fallbackRender : EmailDoc → Except String (List Nat))
    (e : EmailDoc) :
    ((convertEmailToPdf (primaryRender e) (fallbackRender e)).2 = true ↔
      ∃ err, primaryRender e = .error err) ∧
    (∀ b, primaryRender e = .ok b →
      convertEmailToPdf (primaryRender e) (fallbackRender e) = (.ok b, false)) ∧
    (∀ err b, primaryRender e = .error err → fallbackRender e = .ok b →
      convertEmailToPdf (primaryRender e) (fallbackRender e) = (.ok b, true)) ∧
    (∀ err err2, primaryRender e = .error err → fallbackRender e = .error err2 →
      convertEmailToPdf (primaryRender e) (fallbackRender e) =
        (.error err, true)) := by
  refine ⟨?_, ?_, ?_, ?_⟩
  · rcases hp : primaryRender e with err | b
    · rcases hf : fallbackRender e with err2 | b2
      · simp [convertEmailToPdf]
      · simp [convertEmailToPdf]
    · simp [convertEmailToPdf]
  · intro b hb
    unfold convertEmailToPdf; rw [hb]
  · intro err b herr hb
    unfold convertEmailToPdf; rw [herr, hb]
  · intro err err2 herr herr2
    unfold convertEmailToPdf; rw [herr, herr2]

/-- C4 (witness): when both stages raise, the result carries the original
primary-path error, and the fallback was attempted. -/
theorem C4_witness :
    convertEmailToPdf (demoPrimaryFail demoEmail) (demoFallbackFail demoEmail) =
      (.error "Error generating PDF", true) :=
  (C4_render_fallback demoPrimaryFail demoFallbackFail demoEmail).2.2.2
    "Error generating PDF" "Fallback PDF generation failed" rfl rfl

/-! ### Claim C5: forwarded-comment extraction -/

/-- C5 (counterexample): in `demoTwoMarkerBody` the marker occurring first in
the text is the capital-M variant and the text before it normalises to `A`,
but the source loop selects the first marker in the fixed list order, so the
extracted comment is not `A`. -/
theorem C5_counterexample :
    firstMarkerByPosition demoTwoMarkerBody =
      some "---------- Forwarded Message ----------" ∧
    normalizeForwardedText (trimJS (textBeforeFirst
      "---------- Forwarded Message ----------".data demoTwoMarkerBody.data)) =
      "A".data ∧
    extractForwardedText (some demoTwoMarkerBody) =
      some "A\n---------- Forwarded Message ---------- B" ∧
    extractForwardedText (some demoTwoMarkerBody) ≠ some "A" := by
  decide

/-- C5 (amended): when no marker occurs in the body no comment is extracted;
when some marker occurs, the marker `m` selected is the first one in the
fixed list order that occurs anywhere (not the one occurring first by
position), and the comment is the trimmed text before the first occurrence
of `m`, normalised by the four whitespace rules — `none` when that text is
empty.  The specification scenario extracts `Hi team`. -/
theorem C5_forwarded_comment (t : String) :
    (markersFind t = none → extractForwardedText (some t) = none) ∧
    (∀ m, markersFind t = some m →
      extractForwardedText (some t) =
        (if trimJS (textBeforeFirst m.data t.data) = [] then none
         else some (String.mk (normalizeForwardedText
           (trimJS (textBeforeFirst m.data t.data)))))) ∧
    extractForwardedText (some demoForwardBody) = some "Hi team" := by
  refine ⟨?_, ?_, by decide⟩
  · intro h
    by_cases ht : t = ""
    · simp only [extractForwardedText, if_pos ht]
    · simp only [extractForwardedText, if_neg ht, h]
  · intro m hm
    by_cases ht : t = ""
    · have h0 : markersFind "" = none := by decide
      rw [ht, h0] at hm
      exact absurd hm (by simp)
    · simp only [extractForwardedText, if_neg ht, hm]

/-- C5 (witness): the scenario body instantiates the marker-selection clause
at the first marker of the list. -/
theorem C5_witness :
    extractForwardedText (some demoForwardBody) =
      (if trimJS (textBeforeFirst
          "---------- Forwarded message ---------".data demoForwardBody.data) = []
       then none
       else some (String.mk (normalizeForwardedText (trimJS (textBeforeFirst
          "---------- Forwarded message ---------".data demoForwardBody.data))))) :=
  (C5_forwarded_comment demoForwardBody).2.1
    "---------- Forwarded message ---------" (by decide)

/-! ### Claim C6: watcher reconnection policy -/

/-- C6 (counterexample): after ten consecutive connection errors the counter
is 10; the claim says every connection error increments the counter, but the
eleventh error leaves it at 10 (the code increments only below the bound). -/
theorem C6_counterexample :
    (watcherRun initialWatcherState
      (List.replicate 10 .connError)).1.reconnectAttempts = 10 ∧
    (watcherStep (watcherRun initialWatcherState
      (List.replicate 10 .connError)).1 .connError).1.reconnectAttempts ≠
      (watcherRun initialWatcherState
        (List.replicate 10 .connError)).1.reconnectAttempts + 1 := by
  decide

/-- C6 (amended): a connection error with the counter below 10 increments the
counter and schedules exactly one reconnection after the fixed 10-second
delay; an error with the counter at the bound leaves the counter unchanged,
marks the listener permanently failed, and schedules nothing; from a failed
state no reconnection is ever scheduled again; a successful connection resets
the counter to zero; a clean end event changes nothing and never schedules a
reconnection. -/
theorem C6_watcher_reconnection (s : WatcherState) (evs : List WatcherEvent) :
    (s.failed = false → s.reconnectAttempts < maxReconnectAttempts →
      watcherStep s .connError =
        (⟨s.reconnectAttempts + 1, false⟩, some reconnectDelay)) ∧
    (s.failed = false → ¬ s.reconnectAttempts < maxReconnectAttempts →
      watcherStep s .connError = (⟨s.reconnectAttempts, true⟩, none)) ∧
    (s.failed = true → (watcherRun s evs).2 = []) ∧
    (s.failed = false → watcherStep s .ready = (⟨0, false⟩, none)) ∧
    (watcherStep s .ended = (s, none)) := by
  obtain ⟨n, f⟩ := s
  refine ⟨?_, ?_, ?_, ?_, ?_⟩
  · intro hf hlt
    have hf' : f = false := hf
    subst hf'
    simp [watcherStep, hlt]
  · intro hf hnlt
    have hf' : f = false := hf
    subst hf'
    simp [watcherStep, hnlt]
  · intro hf
    have hf' : f = true := hf
    subst hf'
    induction evs with
    | nil => rfl
    | cons e evs ih =>
      have hstep : watcherStep ⟨n, true⟩ e = (⟨n, true⟩, none) := by
        simp [watcherStep]
      simp [watcherRun, hstep, ih]
  · intro hf
    have hf' : f = false := hf
    subst hf'
    simp [watcherStep]
  · cases f <;> simp [watcherStep]

/-- C6 (witness): a third error schedules one reconnect after 10 seconds; a
permanently failed watcher schedules nothing on any further event. -/
theorem C6_witness :
    watcherStep ⟨3, false⟩ .connError = (⟨4, false⟩, some 10000) ∧
    (watcherRun ⟨10, true⟩ [.connError, .ready, .ended]).2 = [] :=
  ⟨(C6_watcher_reconnection ⟨3, false⟩ []).1 rfl (by decide),
   (C6_watcher_reconnection ⟨10, true⟩ [.connError, .ready, .ended]).2.2.1 rfl⟩

/-! ### Claim C7: delivery request construction -/

/-- C7 (counterexample): the caption is prefixed with `Email от `, so it does
not equal `"<sender>: <subject>"`. -/
theorem C7_counterexample :
    (buildDeliveryRequest "-100123" "bob@x.com" (some "Hello") none (some 5)
      "email_1.pdf").caption = "Email от bob@x.com: Hello" ∧
    (buildDeliveryRequest "-100123" "bob@x.com" (some "Hello") none (some 5)
      "email_1.pdf").caption ≠ "bob@x.com: Hello" := by
  decide

/-- C7 (amended): the caption equals
`"Email от <sender>: <subject>"` (subject defaulting to `No Subject` when
absent or empty), followed by a blank line and the extracted comment when one
is present; the sub-channel field is included exactly when the resolved topic
id is present and positive, and the destination chat and file name are passed
through unchanged. -/
theorem C7_delivery_request (chatId sender fname : String)
    (subject fwd : Option String) (topicId : Option Int) (t : Int) :
    (fwd = none →
      (buildDeliveryRequest chatId sender subject fwd topicId fname).caption =
        "Email от " ++ sender ++ ": " ++ subjectOrDefault subject) ∧
    (∀ f, fwd = some f → f ≠ "" →
      (buildDeliveryRequest chatId sender subject fwd topicId fname).caption =
        "Email от " ++ sender ++ ": " ++ subjectOrDefault subject ++
          "\n\n" ++ f) ∧
    ((buildDeliveryRequest chatId sender subject fwd topicId fname).messageThreadId
        = some t ↔ topicId = some t ∧ 0 < t) ∧
    (buildDeliveryRequest chatId sender subject fwd topicId fname).chatId = chatId ∧
    (buildDeliveryRequest chatId sender subject fwd topicId fname).filename = fname := by
  refine ⟨?_, ?_, ?_, rfl, rfl⟩
  · intro h
    subst h
    rfl
  · intro f hf hne
    subst hf
    simp [buildDeliveryRequest, buildCaption, hne]
  · rcases topicId with - | u
    · simp [buildDeliveryRequest, resolveThreadOption]
    · by_cases h0 : 0 < u
      · simp only [buildDeliveryRequest, resolveThreadOption, if_pos h0,
          Option.some.injEq]
        constructor
        · rintro rfl
          exact ⟨rfl, h0⟩
        · rintro ⟨h, -⟩
          exact h
      · simp only [buildDeliveryRequest, resolveThreadOption, if_neg h0]
        constructor
        · intro h
          exact absurd h (by simp)
        · rintro ⟨h, hpos⟩
          injection h with h
          rw [h] at h0
          exact absurd hpos h0

/-- C7 (witness): a delivered message with a forwarded comment and topic 99
produces the prefixed caption with the comment appended. -/
theorem C7_witness :
    (buildDeliveryRequest "-100123" "bob@x.com" (some "Hello") (some "FYI")
      (some 99) "email_1.pdf").caption =
      "Email от " ++ "bob@x.com" ++ ": " ++ subjectOrDefault (some "Hello") ++
        "\n\n" ++ "FYI" :=
  (C7_delivery_request "-100123" "bob@x.com" "email_1.pdf" (some "Hello")
    (some "FYI") (some 99) 99).2.1 "FYI" rfl (by decide)

/-! ### Claim C8: HTML escaping of interpolated header fields -/

theorem escapeHtmlL_cons (a : Char) (l : List Char) :
    escapeHtmlL (a :: l) = escapeHtmlL [a] ++ escapeHtmlL l := by
  simp [escapeHtmlL, replaceCharL]

theorem escapeHtmlL_singleton_other (a : Char) (h1 : a ≠ '&') (h2 : a ≠ '<')
    (h3 : a ≠ '>') (h4 : a ≠ '"') (h5 : a ≠ Char.ofNat 39) :
    escapeHtmlL [a] = [a] := by
  simp [escapeHtmlL, replaceCharL, h1, h2, h3, h4, h5]

theorem escapeHtmlL_all_safe (l : List Char) :
    (escapeHtmlL l).all
      (fun c => !(c == '<' || c == '>' || c == '"' || c == Char.ofNat 39)) = true := by
  induction l with
  | nil => rfl
  | cons a l ih =>
    rw [escapeHtmlL_cons, List.all_append, Bool.and_eq_true]
    refine ⟨?_, ih⟩
    by_cases h1 : a = '&'
    · subst h1; decide
    by_cases h2 : a = '<'
    · subst h2; decide
    by_cases h3 : a = '>'
    · subst h3; decide
    by_cases h4 : a = '"'
    · subst h4; decide
    by_cases h5 : a = Char.ofNat 39
    · subst h5; decide
    rw [escapeHtmlL_singleton_other a h1 h2 h3 h4 h5]
    simp [h2, h3, h4, h5]

/-- C8: both renderings interpolate each header field (subject, from, to, cc
and — in the fallback — the body text) only through `escapeHtml`, whose
output never contains a raw `<`, `>`, `"` or apostrophe and which maps the
five special characters to their entities, so attacker-controlled header
content cannot introduce raw markup into the generated document. -/
theorem C8_html_escaping (e : EmailDoc) (s : String) :
    createEmailHtml e =
      htmlLit1 ++ escapeHtml (subjectOrDefault e.subject) ++
      htmlLit2 ++ escapeHtml (subjectOrDefault e.subject) ++
      htmlLit3 ++ escapeHtml (formatSender e.fromField) ++
      htmlLit4 ++ escapeHtml (formatRecipients e.toField) ++
      htmlLit5 ++ ccBlock e ++
      htmlLit6 ++ e.dateStr ++
      htmlLit7 ++ emailBodyBlock e ++
      htmlLit8 ++ attachBlock e ++ htmlLit9 ∧
    createSimpleTextEmail e =
      simpleLit1 ++ escapeHtml (subjectOrDefault e.subject) ++
      simpleLit2 ++ escapeHtml (subjectOrDefault e.subject) ++
      simpleLit3 ++ escapeHtml (formatSender e.fromField) ++
      simpleLit4 ++ escapeHtml (formatRecipients e.toField) ++
      simpleLit5 ++ e.dateStr ++
      simpleLit6 ++ escapeHtml (textOrEmpty e) ++ simpleLit7 ∧
    (ccTruthy e.ccField = true →
      ccBlock e = ccLit1 ++ escapeHtml (formatRecipients e.ccField) ++ ccLit2) ∧
    (∀ c ∈ (escapeHtml s).data,
      c ≠ '<' ∧ c ≠ '>' ∧ c ≠ '"' ∧ c ≠ Char.ofNat 39) ∧
    escapeHtml (String.mk ['&', '<', '>', '"', Char.ofNat 39]) =
      "&amp;&lt;&gt;&quot;&#039;" := by
  refine ⟨rfl, rfl, ?_, ?_, by decide⟩
  · intro h
    simp only [ccBlock, if_pos h]
  · intro c hc
    by_cases hs0 : s = ""
    · subst hs0
      simp [escapeHtml] at hc
    · simp only [escapeHtml, if_neg hs0] at hc
      have hc' : c ∈ escapeHtmlL s.data := hc
      have hall := List.all_eq_true.mp (escapeHtmlL_all_safe s.data) c hc'
      refine ⟨fun heq => ?_, fun heq => ?_, fun heq => ?_, fun heq => ?_⟩ <;>
        (rw [heq] at hall; exact absurd hall (by decide))

/-- C8 (witness): the demo email's Cc block interpolates the escaped Cc
field, and the ampersand inside an escaped output is none of the raw markup
characters. -/
theorem C8_witness :
    ccBlock demoEmail =
      ccLit1 ++ escapeHtml (formatRecipients demoEmail.ccField) ++ ccLit2 ∧
    ('&' ≠ '<' ∧ '&' ≠ '>' ∧ '&' ≠ '"' ∧ '&' ≠ Char.ofNat 39) :=
  ⟨(C8_html_escaping demoEmail "a<b").2.2.1 (by decide),
   (C8_html_escaping demoEmail "a<b").2.2.2.1 '&' (by decide)⟩

/-! ### Claim C9: retention sweep -/

theorem cleanupLoop_spec (maxAge now : Int) (files : List StoredFile)
    (h : ∀ f ∈ files, unlinkFails f.unlink = false) :
    cleanupLoop maxAge now files =
      ((files.filter (fun f => decide (now - f.mtimeMs > maxAge))).length,
       files.filter (fun f => decide (now - f.mtimeMs > maxAge))) := by
  induction files with
  | nil => rfl
  | cons f rest ih =>
    have hdel : deleteFile f.unlink = .ok true := by
      rcases hu : f.unlink with - | - | e
      · rfl
      · rfl
      · have := h f (List.mem_cons_self f rest)
        rw [hu] at this
        simp [unlinkFails] at this
    have hrest := ih (fun g hg => h g (List.mem_cons_of_mem f hg))
    by_cases hage : now - f.mtimeMs > maxAge
    · simp [cleanupLoop, hage, hdel, hrest, List.filter_cons]
    · simp [cleanupLoop, hage, hrest, List.filter_cons]

/-- C9: provided no unlink reports a genuine error (a missing file counts as
success), the sweep deletes exactly the files whose age strictly exceeds
`maxAgeHours` (converted to milliseconds) and returns their count; deleting
an already-missing file resolves as success. -/
theorem C9_retention_sweep (maxAgeHours now : Int) (files : List StoredFile)
    (h : ∀ f ∈ files, unlinkFails f.unlink = false) :
    (cleanupOldFiles maxAgeHours now files).1 =
      (files.filter (fun f =>
        decide (now - f.mtimeMs > maxAgeHours * 60 * 60 * 1000))).length ∧
    (cleanupOldFiles maxAgeHours now files).2 =
      files.filter (fun f =>
        decide (now - f.mtimeMs > maxAgeHours * 60 * 60 * 1000)) ∧
    deleteFile .missing = .ok true := by
  have hspec := cleanupLoop_spec (maxAgeHours * 60 * 60 * 1000) now files h
  unfold cleanupOldFiles
  rw [hspec]
  exact ⟨rfl, rfl, rfl⟩

/-- C9 (witness): with `maxAgeHours = 24` over files aged one hour and thirty
hours, exactly the thirty-hour file is deleted and the count is 1. -/
theorem C9_witness :
    (cleanupOldFiles 24 (30 * 3600000) demoFiles).1 = 1 ∧
    (cleanupOldFiles 24 (30 * 3600000) demoFiles).2 = [⟨"old.pdf", 0, .ok⟩] ∧
    (cleanupOldFiles 24 (30 * 3600000) demoFiles).1 =
      (demoFiles.filter (fun f =>
        decide (30 * 3600000 - f.mtimeMs > 24 * 60 * 60 * 1000))).length :=
  ⟨by decide, by decide,
   (C9_retention_sweep 24 (30 * 3600000) demoFiles (by decide)).1⟩

/-! ### Claim C10: null cases of the forwarded-comment extraction -/

theorem collapseRun_ne_nil (run : List Char) (h : run ≠ []) :
    collapseRun run ≠ [] := by
  unfold collapseRun
  split
  · simp
  · exact h

theorem collapseBlankGo_ne_nil (fuel : Nat) (l : List Char) (h : l ≠ []) :
    collapseBlankGo fuel l ≠ [] := by
  cases l with
  | nil => exact absurd rfl h
  | cons c rest =>
    cases fuel with
    | zero => exact h
    | succ fuel =>
      by_cases hsp : isSpaceJS c = true
      · have heq : collapseBlankGo (fuel + 1) (c :: rest) =
            collapseRun ((c :: rest).takeWhile isSpaceJS) ++
              collapseBlankGo fuel ((c :: rest).dropWhile isSpaceJS) := by
          simp [collapseBlankGo, hsp]
        rw [heq]
        intro hcontra
        rcases List.append_eq_nil.mp hcontra with ⟨h1, -⟩
        have hrun : (c :: rest).takeWhile isSpaceJS ≠ [] := by
          rw [List.takeWhile_cons, if_pos hsp]
          simp
        exact collapseRun_ne_nil _ hrun h1
      · have heq : collapseBlankGo (fuel + 1) (c :: rest) =
            c :: collapseBlankGo fuel rest := by
          simp [collapseBlankGo, hsp]
        rw [heq]
        simp

theorem joinWrappedLines_ne_nil (l : List Char) (h : l ≠ []) :
    joinWrappedLines l ≠ [] := by
  rcases l with - | ⟨a, - | ⟨b, - | ⟨c, r⟩⟩⟩
  · exact absurd rfl h
  · simp [joinWrappedLines]
  · simp [joinWrappedLines]
  · simp only [joinWrappedLines]
    split
    · simp
    · simp

theorem trimLineStartsGo_ne_nil (l : List Char) (h : l ≠ []) :
    trimLineStartsGo false l ≠ [] := by
  cases l with
  | nil => exact absurd rfl h
  | cons c rest =>
    have heq : trimLineStartsGo false (c :: rest) =
        if c == '\n' then '\n' :: trimLineStartsGo true rest
        else c :: trimLineStartsGo false rest := by
      simp [trimLineStartsGo]
    rw [heq]
    split
    · simp
    · simp

theorem collapseSpacesGo_ne_nil (l : List Char) (h : l ≠ []) :
    collapseSpacesGo false l ≠ [] := by
  cases l with
  | nil => exact absurd rfl h
  | cons c rest =>
    cases rest with
    | nil => simp [collapseSpacesGo]
    | cons d rest2 =>
      have heq : collapseSpacesGo false (c :: d :: rest2) =
          if isSpaceJS c && isSpaceJS d
          then ' ' :: collapseSpacesGo true (d :: rest2)
          else c :: collapseSpacesGo false (d :: rest2) := by
        simp [collapseSpacesGo]
      rw [heq]
      split
      · simp
      · simp

theorem normalizeForwardedText_ne_nil (l : List Char) (h : l ≠ []) :
    normalizeForwardedText l ≠ [] := by
  unfold normalizeForwardedText
  apply collapseSpacesGo_ne_nil
  apply trimLineStartsGo_ne_nil
  apply joinWrappedLines_ne_nil
  unfold collapseBlankLines
  exact collapseBlankGo_ne_nil _ _ h

/-- C10: the extraction returns `null` when the mail has no (truthy)
plain-text body, and when a marker is present but the trimmed text before it
is empty (in particular whitespace-only); consequently every extracted
comment is a non-empty string. -/
theorem C10_extract_nullability (t m : String) :
    extractForwardedText none = none ∧
    extractForwardedText (some "") = none ∧
    (markersFind t = some m → trimJS (textBeforeFirst m.data t.data) = [] →
      extractForwardedText (some t) = none) ∧
    (∀ c, extractForwardedText (some t) = some c → c ≠ "") := by
  refine ⟨rfl, rfl, ?_, ?_⟩
  · intro hm hb
    by_cases ht : t = ""
    · simp only [extractForwardedText, if_pos ht]
    · simp [extractForwardedText, ht, hm, hb]
  · intro c hc
    by_cases ht : t = ""
    · rw [ht] at hc
      simp [extractForwardedText] at hc
    · rcases hm : markersFind t with - | m2
      · simp only [extractForwardedText, if_neg ht, hm] at hc
        exact absurd hc (by simp)
      · simp only [extractForwardedText, if_neg ht, hm] at hc
        by_cases hb : trimJS (textBeforeFirst m2.data t.data) = []
        · rw [if_pos hb] at hc
          exact absurd hc (by simp)
        · rw [if_neg hb] at hc
          have hcd : c = String.mk (normalizeForwardedText
              (trimJS (textBeforeFirst m2.data t.data))) := by
            injection hc with hh
            exact hh.symm
          intro hcempty
          rw [hcempty] at hcd
          have hnil : normalizeForwardedText
              (trimJS (textBeforeFirst m2.data t.data)) = [] :=
            (congrArg String.data hcd).symm
          exact normalizeForwardedText_ne_nil _ hb hnil

/-- C10 (witness): a body whose text before the marker is whitespace-only
yields no comment. -/
theorem C10_witness :
    extractForwardedText (some demoEmptyCommentBody) = none :=
  (C10_extract_nullability demoEmptyCommentBody
    "---------- Forwarded message ---------").2.2.1 (by decide) (by decide)

end Email2Telegram
